import Mathlib

/-! GStreamer Editing Services: the formatter registry and lifecycle driver.

A shallow embedding of `ges/ges-formatter.c`.

* A `GList` of assets is a `List GESAsset`, iterated head first.
* A `GError **` argument is a `GErrorOut`: `none` is a `NULL` argument,
  `some none` is the address of an empty `GError *`, `some (some e)` is the
  address of a `GError *` that already holds `e`.
* A virtual method that reports through a `GError **` is a function giving its
  boolean result together with the error it raises, if any; the raised error is
  stored into the caller's `GErrorOut` with the semantics of `g_set_error`.
* Logging (`GST_ERROR`, `GST_DEBUG`, ...) and reference counting have no effect
  on the results and are left out.
-/

set_option autoImplicit false

namespace GES

/-! ## GLib / GStreamer primitives used by the formatter code -/

/-- A `GError`: domain, code and message. -/
structure GError where
  domain : Nat
  code : Nat
  message : String
deriving DecidableEq, Repr

/-- The `GError **` argument of a function. -/
abbrev GErrorOut := Option (Option GError)

/-- GLib's `g_propagate_error (dest, src)`: with a `NULL` destination the error
is dropped, an empty destination receives it, and a destination that already
holds an error keeps the one it has. -/
def g_propagate_error (dest : GErrorOut) (src : GError) : GErrorOut :=
  match dest with
  | none => none
  | some none => some (some src)
  | some (some e) => some (some e)

/-- Store what a callee raised (if anything) through the `GError **` it was handed. -/
def g_set_raised (dest : GErrorOut) (raised : Option GError) : GErrorOut :=
  match raised with
  | none => dest
  | some e => g_propagate_error dest e

/-- `GST_RANK_NONE` of `GstRank`. -/
def GST_RANK_NONE : Nat := 0

/-- The two URI helpers of GStreamer core which the formatter code calls:
`gst_uri_is_valid (uri)` and `gst_uri_has_protocol (uri, protocol)`. -/
structure GstUri where
  gst_uri_is_valid : String → Bool
  gst_uri_has_protocol : String → String → Bool

/-! ## Data model -/

/-- Modelled from the spec: the timeline service of `ges-timeline.c`, of which
the formatter code uses only `ges_timeline_enable_update`. `update` tells
whether automatic recomputation is enabled, `id` is the identity of the object
and `layers` stands for the content a formatter populates. -/
structure GESTimeline where
  id : Nat
  update : Bool
  layers : List Nat
deriving DecidableEq, Repr

/-- Modelled from the spec: `ges_timeline_enable_update (timeline, enabled)` of
`ges-timeline.c`: suspends (`false`) or resumes (`true`) automatic recomputation. -/
def ges_timeline_enable_update (timeline : GESTimeline) (enabled : Bool) : GESTimeline :=
  { timeline with update := enabled }

/-- The instance fields of `struct _GESFormatter` that the code touches: the
project back-reference and the timeline the formatter is bound to. -/
structure GESFormatterFields where
  project : Option Nat
  timeline : Option Nat

/-- What a concrete `load_from_uri` routine hands back: its boolean result, the
formatter fields and the timeline as it left them, and the error it raised. -/
structure LoadOutcome where
  ret : Bool
  fields : GESFormatterFields
  timeline : GESTimeline
  raised : Option GError

/-- The class structure `GESFormatterClass`: the four virtual methods and the
rank among the metas. `load_from_uri` and `save_to_uri` may be `NULL`. -/
structure GESFormatterClass where
  can_load_uri : String → Bool × Option GError
  can_save_uri : String → Bool × Option GError
  load_from_uri : Option (GESFormatterFields → GESTimeline → String → LoadOutcome)
  save_to_uri : Option (GESFormatterFields → GESTimeline → String → Bool → Bool × Option GError)
  rank : Nat

/-- A formatter instance: its class (`GES_FORMATTER_GET_CLASS`) and its fields. -/
structure GESFormatter where
  klass : GESFormatterClass
  fields : GESFormatterFields

/-- A formatter asset as the code sees it: the `GType` it extracts, the class
that `g_type_class_ref` gives for that type, and the value stored under
`GES_META_FORMATTER_RANK` in its meta container (absent when never registered). -/
structure GESAsset where
  extractable_type : Nat
  klass : GESFormatterClass
  rank_meta : Option Nat

/-- The function `default_can_load_uri`. -/
def default_can_load_uri (_uri : String) : Bool × Option GError := (false, none)

/-- The function `default_can_save_uri`. -/
def default_can_save_uri (_uri : String) : Bool × Option GError := (false, none)

/-- The class as `ges_formatter_class_init` leaves it. -/
def ges_formatter_class_init : GESFormatterClass where
  can_load_uri := default_can_load_uri
  can_save_uri := default_can_save_uri
  load_from_uri := none
  save_to_uri := none
  rank := GST_RANK_NONE

/-- The function `ges_formatter_class_register_metas`, for the rank. -/
def ges_formatter_class_register_metas (klass : GESFormatterClass) (rank : Nat) :
    GESFormatterClass :=
  { klass with rank := rank }

/-- The function `_register_metas`, for the rank: the asset's meta container
receives the class rank under `GES_META_FORMATTER_RANK`. -/
def _register_metas (type : Nat) (klass : GESFormatterClass) : GESAsset where
  extractable_type := type
  klass := klass
  rank_meta := some klass.rank

/-- The call `ges_meta_container_get_uint (container, GES_META_FORMATTER_RANK, &dest)`:
`dest` is overwritten only when the meta is present. -/
def ges_meta_container_get_uint (asset : GESAsset) (dest : Nat) : Nat :=
  match asset.rank_meta with
  | some v => v
  | none => dest

/-- The rank the selection loop reads for an asset: `tmprank` after it is reset
to `GST_RANK_NONE` and the meta is fetched into it. -/
def tmprank (asset : GESAsset) : Nat :=
  ges_meta_container_get_uint asset GST_RANK_NONE

/-! ## `ges_formatter_get_default` -/

/-- The loop of `ges_formatter_get_default` over the remaining list cells, with
the running `ret` and `rank`. -/
def get_default_loop : List GESAsset → Option GESAsset → Nat → Option GESAsset
  | [], ret, _ => ret
  | asset :: tmp, ret, rank =>
    if tmprank asset > rank then get_default_loop tmp (some asset) (tmprank asset)
    else get_default_loop tmp ret rank

/-- The function `ges_formatter_get_default`, on the list `ges_list_assets` gives. -/
def ges_formatter_get_default (assets : List GESAsset) : Option GESAsset :=
  get_default_loop assets none GST_RANK_NONE

/-! ### Sample registry entries -/

/-- A concrete formatter class of the given rank that loads nothing. -/
def rankedClass (rank : Nat) : GESFormatterClass :=
  ges_formatter_class_register_metas ges_formatter_class_init rank

/-- The asset registered for type `type` with a class of rank `rank`. -/
def rankedAsset (type rank : Nat) : GESAsset :=
  _register_metas type (rankedClass rank)

/-! ## URI capability queries -/

/-- The loop of `ges_formatter_can_load_uri` over the remaining list cells; the
same `error` is handed to every class in turn. -/
def can_load_uri_loop (uri : String) : List GESAsset → GErrorOut → Bool × GErrorOut
  | [], error => (false, error)
  | asset :: tmp, error =>
    if (asset.klass.can_load_uri uri).1 then
      (true, g_set_raised error (asset.klass.can_load_uri uri).2)
    else
      can_load_uri_loop uri tmp (g_set_raised error (asset.klass.can_load_uri uri).2)

/-- The function `ges_formatter_can_load_uri`: the returned boolean and the
caller's `error` as the call leaves it. -/
def ges_formatter_can_load_uri (gst : GstUri) (formatter_assets : List GESAsset)
    (uri : String) (error : GErrorOut) : Bool × GErrorOut :=
  if !gst.gst_uri_is_valid uri then (false, error)
  else if !gst.gst_uri_has_protocol uri "file" then (false, error)
  else can_load_uri_loop uri formatter_assets error

/-- The function `ges_formatter_can_save_uri`. -/
def ges_formatter_can_save_uri (gst : GstUri) (uri : String) (error : GErrorOut) :
    Bool × GErrorOut :=
  if !gst.gst_uri_is_valid uri then (false, error)
  else if !gst.gst_uri_has_protocol uri "file" then (false, error)
  else (true, error)

/-- The function `_find_formatter_asset_for_uri`: `asset` is `NULL` before the
loop and after every cell that declines, and the loop stops at the first cell
whose class accepts. The classes are called with a `NULL` error. -/
def _find_formatter_asset_for_uri (uri : String) : List GESAsset → Option GESAsset
  | [] => none
  | asset :: tmp =>
    if (asset.klass.can_load_uri uri).1 then some asset
    else _find_formatter_asset_for_uri uri tmp

/-! ## Load and save -/

/-- What `ges_formatter_load_from_uri` leaves behind: the returned boolean, the
formatter, the timeline and the caller's `error`. -/
structure LoadResult where
  ret : Bool
  formatter : GESFormatter
  timeline : GESTimeline
  error : GErrorOut

/-- The function `ges_formatter_load_from_uri`. Both arguments are well-typed
objects, so the two `g_return_val_if_fail` guards pass. -/
def ges_formatter_load_from_uri (formatter : GESFormatter) (timeline : GESTimeline)
    (uri : String) (error : GErrorOut) : LoadResult :=
  match formatter.klass.load_from_uri with
  | some load =>
    let suspended := ges_timeline_enable_update timeline false
    let bound : GESFormatterFields := { formatter.fields with timeline := some suspended.id }
    let out := load bound suspended uri
    { ret := out.ret
      formatter := { formatter with fields := out.fields }
      timeline := ges_timeline_enable_update out.timeline true
      error := g_set_raised error out.raised }
  | none =>
    { ret := false, formatter := formatter, timeline := timeline, error := error }

/-- The function `ges_formatter_save_to_uri`: the returned boolean and the
caller's `error` as the call leaves it. -/
def ges_formatter_save_to_uri (formatter : GESFormatter) (timeline : GESTimeline)
    (uri : String) (overwrite : Bool) (error : GErrorOut) : Bool × GErrorOut :=
  let r : Bool × Option GError :=
    match formatter.klass.save_to_uri with
    | some save => save formatter.fields timeline uri overwrite
    | none => (false, none)
  match r.2 with
  | some lerr => (r.1, g_propagate_error error lerr)
  | none => (r.1, error)

/-! ## Discovery of the formatter types -/

/-- A type of the GObject type tree below `GES_TYPE_FORMATTER`: its `GType`,
whether it is abstract, and its direct subtypes. -/
inductive GTypeNode where
  | node (type : Nat) (is_abstract : Bool) (children : List GTypeNode)

/-- The `GType` of a node. -/
def GTypeNode.type : GTypeNode → Nat
  | .node type _ _ => type

/-- The macro `G_TYPE_IS_ABSTRACT`. -/
def G_TYPE_IS_ABSTRACT : GTypeNode → Bool
  | .node _ is_abstract _ => is_abstract

/-- GObject's `g_type_children`: the direct subtypes only. -/
def g_type_children : GTypeNode → List GTypeNode
  | .node _ _ children => children

mutual
/-- One iteration of the loop of `_list_formatters`: recurse into the children
of `type` when it has any, then request an asset unless `type` is abstract.
The second argument is the list of the `ges_asset_request` calls made so far. -/
def _list_formatters_step : GTypeNode → List Nat → List Nat
  | .node type is_abstract children, requested =>
    let requested1 :=
      if children.length ≠ 0 then _list_formatters children requested else requested
    if is_abstract then requested1 else requested1 ++ [type]
/-- The function `_list_formatters` on the array of types it is given. -/
def _list_formatters : List GTypeNode → List Nat → List Nat
  | [], requested => requested
  | type :: rest, requested => _list_formatters rest (_list_formatters_step type requested)
end

/-- The function `_init_formatter_assets`, with `root` for `GES_TYPE_FORMATTER`:
the `ges_asset_request` calls of the whole pass, in order. -/
def _init_formatter_assets (root : GTypeNode) : List Nat :=
  _list_formatters (g_type_children root) []

mutual
/-- A type followed by all the types below it. -/
def subtree : GTypeNode → List GTypeNode
  | .node type is_abstract children =>
    GTypeNode.node type is_abstract children :: subtrees children
/-- The types of a list of trees. -/
def subtrees : List GTypeNode → List GTypeNode
  | [] => []
  | type :: rest => subtree type ++ subtrees rest
end

/-- The strict descendants of a type. -/
def descendants (root : GTypeNode) : List GTypeNode :=
  subtrees (g_type_children root)

/-- The `GType`s of the concrete types among a list of types. -/
def concreteTypes (types : List GTypeNode) : List Nat :=
  (types.filter (fun t => !G_TYPE_IS_ABSTRACT t)).map GTypeNode.type

/-! ## Sample URI helpers and formatter classes -/

/-- The characters of a URI before its first colon. -/
def uriProtocol (uri : String) : List Char :=
  uri.data.takeWhile (fun c => c != ':')

/-- A sample of the GStreamer URI helpers: a URI is valid when a non-empty
alphanumeric protocol precedes its first colon, and it has a protocol when the
characters before the first colon spell it. -/
def sampleGst : GstUri where
  gst_uri_is_valid uri :=
    uri.data.contains ':' && !(uriProtocol uri).isEmpty &&
      (uriProtocol uri).all Char.isAlphanum
  gst_uri_has_protocol uri protocol :=
    uri.data.contains ':' && uriProtocol uri == protocol.data

/-- A concrete formatter class whose `can_load_uri` accepts every URI. -/
def acceptingClass (rank : Nat) : GESFormatterClass :=
  { rankedClass rank with can_load_uri := fun _ => (true, none) }

/-- The asset of an accepting class. -/
def acceptingAsset (type rank : Nat) : GESAsset :=
  _register_metas type (acceptingClass rank)

/-- A sample error of a concrete formatter. -/
def sampleError : GError := { domain := 1, code := 2, message := "cannot parse" }

/-- A concrete formatter class whose `can_load_uri` declines every URI and
raises `sampleError`. -/
def decliningClass (rank : Nat) : GESFormatterClass :=
  { rankedClass rank with can_load_uri := fun _ => (false, some sampleError) }

/-- The asset of a declining class. -/
def decliningAsset (type rank : Nat) : GESAsset :=
  _register_metas type (decliningClass rank)

/-- A sample `load_from_uri` routine: it fills the timeline, suspends its
recomputation once more on the way, and returns `ok`, raising `sampleError`
when `ok` is false. -/
def sampleLoad (ok : Bool) (fields : GESFormatterFields) (timeline : GESTimeline)
    (_uri : String) : LoadOutcome where
  ret := ok
  fields := fields
  timeline := ges_timeline_enable_update { timeline with layers := [1, 2] } false
  raised := if ok then none else some sampleError

/-- A concrete formatter class with the load routine `sampleLoad ok` and a save
routine that returns `ok`, raising `sampleError` when `ok` is false. -/
def loadingClass (ok : Bool) : GESFormatterClass :=
  { acceptingClass 10 with
    load_from_uri := some (sampleLoad ok)
    save_to_uri := some (fun _ _ _ _ => (ok, if ok then none else some sampleError)) }

/-- A fresh instance of a class, as `ges_formatter_init` leaves it. -/
def ges_formatter_init (klass : GESFormatterClass) : GESFormatter where
  klass := klass
  fields := { project := none, timeline := none }

/-- A sample timeline, with recomputation enabled or not. -/
def sampleTimeline (update : Bool) : GESTimeline :=
  { id := 1, update := update, layers := [] }

/-- A sample type tree below the root formatter type 0: an abstract type 1 with
a concrete subtype 2, and a concrete type 3 with a concrete subtype 4. -/
def sampleTypes : GTypeNode :=
  .node 0 true [.node 1 true [.node 2 false []], .node 3 false [.node 4 false []]]

/-! ## The audio track of `ges/ges-audio-track.c` -/

/-- The value of a caps field: an integer or a string. -/
inductive GstValue where
  | int (n : Nat)
  | str (s : String)
deriving DecidableEq, Repr

/-- A `GstCaps` of one structure: the media type and the fields in order. -/
structure GstCaps where
  media_type : String
  fields : List (String × GstValue)
deriving DecidableEq, Repr

/-- Cut a character list at every occurrence of `sep`. -/
def splitChars (sep : Char) : List Char → List (List Char)
  | [] => [[]]
  | c :: cs =>
    if c == sep then [] :: splitChars sep cs
    else
      match splitChars sep cs with
      | [] => [[c]]
      | w :: ws => (c :: w) :: ws

/-- The number a list of decimal digits spells. -/
def digitsValue (ds : List Char) : Nat :=
  ds.foldl (fun n d => 10 * n + (d.toNat - '0'.toNat)) 0

/-- The typed value of the text right of the `=` of a caps field. -/
def parseValue (text : List Char) : GstValue :=
  if !text.isEmpty && text.all Char.isDigit then GstValue.int (digitsValue text)
  else GstValue.str (String.mk text)

/-- One `name=value` item of a caps string, leading blanks dropped; none when
the item has no `=` or no name. -/
def parseField (item : List Char) : Option (String × GstValue) :=
  let body := item.dropWhile (fun c => c == ' ')
  let name := body.takeWhile (fun c => c != '=')
  if name.isEmpty || !body.contains '=' then none
  else some (String.mk name, parseValue (body.drop (name.length + 1)))

/-- All the items of a caps string after the media type; none when one of them
does not parse. -/
def parseFields : List (List Char) → Option (List (String × GstValue))
  | [] => some []
  | item :: rest =>
    match parseField item, parseFields rest with
    | some f, some fs => some (f :: fs)
    | _, _ => none

/-- GStreamer's `gst_caps_from_string`, for the caps strings of one structure
with integer and string fields that this file uses: the media type, then
comma-separated `name=value` items; `NULL` when the string does not parse. -/
def gst_caps_from_string (text : String) : Option GstCaps :=
  match splitChars ',' text.data with
  | [] => none
  | head :: items =>
    let media := head.dropWhile (fun c => c == ' ')
    if media.isEmpty then none
    else
      match parseFields items with
      | some fields => some { media_type := String.mk media, fields := fields }
      | none => none

/-- The two values of `G_BYTE_ORDER`. -/
inductive GByteOrder where
  | G_LITTLE_ENDIAN
  | G_BIG_ENDIAN
deriving DecidableEq, Repr

/-- The macro `DEFAULT_CAPS`. -/
def DEFAULT_CAPS : String := "audio/x-raw"

/-- The macro `DEFAULT_RESTRICTION_CAPS`, as the `#if` on `G_BYTE_ORDER` picks it. -/
def DEFAULT_RESTRICTION_CAPS (order : GByteOrder) : String :=
  match order with
  | .G_LITTLE_ENDIAN =>
    "audio/x-raw, format=S32LE, channels=2, " ++ "rate=44100, layout=interleaved"
  | .G_BIG_ENDIAN =>
    "audio/x-raw, format=S32BE, channels=2, " ++ "rate=44100, layout=interleaved"

/-- The enumeration `GESTrackType`. -/
inductive GESTrackType where
  | GES_TRACK_TYPE_UNKNOWN
  | GES_TRACK_TYPE_AUDIO
  | GES_TRACK_TYPE_VIDEO
  | GES_TRACK_TYPE_TEXT
  | GES_TRACK_TYPE_CUSTOM
deriving DecidableEq, Repr

/-- A `GstElement` as far as this file goes: the factory it was made from and
the integer properties set on it. -/
structure GstElement where
  factory : String
  properties : List (String × Int)
deriving DecidableEq, Repr

/-- The properties of a track that a gap function can read. -/
structure GESTrackProps where
  type : GESTrackType
  caps : Option GstCaps
  restriction_caps : Option GstCaps
deriving DecidableEq, Repr

/-- Modelled from the spec: the track of `ges-track.c`, which is not among the
sources: its stream type, base capability descriptor and restriction
descriptor, and the optional gap-element strategy. -/
structure GESTrack where
  props : GESTrackProps
  create_element_for_gap : Option (GESTrackProps → GstElement)

/-- Modelled from the spec: a restriction refines a base capability when it has
the same media type and keeps every field of the base. -/
def gst_caps_refines (restriction base : GstCaps) : Bool :=
  restriction.media_type == base.media_type &&
    base.fields.all (fun f => restriction.fields.contains f)

/-- Modelled from the spec: `g_object_new` of a track type of `ges-track.c` with
the construct properties `caps` and `track-type`: no restriction and no gap
strategy yet. -/
def g_object_new_track (caps : Option GstCaps) (type : GESTrackType) : GESTrack where
  props := { type := type, caps := caps, restriction_caps := none }
  create_element_for_gap := none

/-- Modelled from the spec: `ges_track_set_create_element_for_gap_func` of
`ges-track.c` stores the strategy on the track. -/
def ges_track_set_create_element_for_gap_func (track : GESTrack)
    (func : GESTrackProps → GstElement) : GESTrack :=
  { track with create_element_for_gap := some func }

/-- Modelled from the spec: `ges_track_set_restriction_caps` of `ges-track.c`
(the spec's `set_restriction`): the descriptor is stored when it refines the
track's base capability descriptor, and the track is left as it was otherwise. -/
def ges_track_set_restriction_caps (track : GESTrack) (caps : Option GstCaps) : GESTrack :=
  match track.props.caps, caps with
  | some base, some restriction =>
    if gst_caps_refines restriction base then
      { track with props := { track.props with restriction_caps := some restriction } }
    else track
  | _, _ => track

/-- The function `create_element_for_raw_audio_gap`: an `audiotestsrc` with its
`wave` property set to 4. -/
def create_element_for_raw_audio_gap (_track : GESTrackProps) : GstElement :=
  { factory := "audiotestsrc", properties := [("wave", 4)] }

/-- The function `ges_audio_track_new`, compiled for the byte order `order`. -/
def ges_audio_track_new (order : GByteOrder) : GESTrack :=
  let caps := gst_caps_from_string DEFAULT_CAPS
  let restriction_caps := gst_caps_from_string (DEFAULT_RESTRICTION_CAPS order)
  let ret := g_object_new_track caps GESTrackType.GES_TRACK_TYPE_AUDIO
  let ret := ges_track_set_create_element_for_gap_func ret create_element_for_raw_audio_gap
  ges_track_set_restriction_caps ret restriction_caps

/-! ## Lemmas on the selection loop -/

theorem get_default_loop_some (l : List GESAsset) :
    ∀ (ret : Option GESAsset) (rank : Nat) (r : GESAsset),
      get_default_loop l ret rank = some r →
      (ret = some r ∧ ∀ b ∈ l, tmprank b ≤ rank) ∨
      (∃ pre post, l = pre ++ r :: post ∧ rank < tmprank r ∧
        (∀ b ∈ pre, tmprank b < tmprank r) ∧ ∀ b ∈ post, tmprank b ≤ tmprank r) := by
  induction l with
  | nil =>
    intro ret rank r h
    left
    exact ⟨by simpa [get_default_loop] using h, by simp⟩
  | cons a tmp ih =>
    intro ret rank r h
    unfold get_default_loop at h
    by_cases hgt : tmprank a > rank
    · rw [if_pos hgt] at h
      right
      rcases ih _ _ _ h with ⟨hret, hle⟩ | ⟨pre, post, hl, hlt, hpre, hpost⟩
      · have har : a = r := by simpa using hret
        subst har
        exact ⟨[], tmp, rfl, hgt, by simp, hle⟩
      · refine ⟨a :: pre, post, by simp [hl], by omega, ?_, hpost⟩
        intro b hb
        rcases List.mem_cons.mp hb with rfl | hb
        · exact hlt
        · exact hpre b hb
    · rw [if_neg hgt] at h
      rcases ih _ _ _ h with ⟨hret, hle⟩ | ⟨pre, post, hl, hlt, hpre, hpost⟩
      · left
        refine ⟨hret, ?_⟩
        intro b hb
        rcases List.mem_cons.mp hb with rfl | hb
        · omega
        · exact hle b hb
      · right
        refine ⟨a :: pre, post, by simp [hl], hlt, ?_, hpost⟩
        intro b hb
        rcases List.mem_cons.mp hb with rfl | hb
        · omega
        · exact hpre b hb

theorem get_default_loop_none (l : List GESAsset) :
    ∀ (ret : Option GESAsset) (rank : Nat),
      get_default_loop l ret rank = none → ret = none ∧ ∀ b ∈ l, tmprank b ≤ rank := by
  induction l with
  | nil =>
    intro ret rank h
    exact ⟨by simpa [get_default_loop] using h, by simp⟩
  | cons a tmp ih =>
    intro ret rank h
    unfold get_default_loop at h
    by_cases hgt : tmprank a > rank
    · rw [if_pos hgt] at h
      have := (ih _ _ h).1
      simp at this
    · rw [if_neg hgt] at h
      obtain ⟨hret, hle⟩ := ih _ _ h
      refine ⟨hret, ?_⟩
      intro b hb
      rcases List.mem_cons.mp hb with rfl | hb
      · omega
      · exact hle b hb

theorem get_default_loop_low (l : List GESAsset) :
    ∀ (ret : Option GESAsset) (rank : Nat),
      (∀ b ∈ l, tmprank b ≤ rank) → get_default_loop l ret rank = ret := by
  induction l with
  | nil => intro ret rank _; rfl
  | cons a tmp ih =>
    intro ret rank h
    unfold get_default_loop
    have ha : ¬ tmprank a > rank := by
      have := h a (List.mem_cons_self _ _)
      omega
    rw [if_neg ha]
    exact ih _ _ (fun b hb => h b (List.mem_cons_of_mem _ hb))

/-! ## Lemmas on the capability loops -/

theorem can_load_uri_loop_true_iff (uri : String) (l : List GESAsset) :
    ∀ error : GErrorOut, (can_load_uri_loop uri l error).1 = true ↔
      ∃ a ∈ l, (a.klass.can_load_uri uri).1 = true := by
  induction l with
  | nil => intro error; simp [can_load_uri_loop]
  | cons a tmp ih =>
    intro error
    unfold can_load_uri_loop
    by_cases h : (a.klass.can_load_uri uri).1 = true
    · rw [if_pos h]
      simp [h]
    · rw [if_neg h, ih]
      simp [h]

/-! ## The default formatter -/

/-- C1: for every registry, whenever `ges_formatter_get_default` returns an
asset, that asset is in the registry, no registered asset has a strictly larger
rank, and every asset before it in iteration order has a strictly smaller rank
(so the first asset of maximal rank wins); and, unconditionally, for a registry
of two assets ranked 5 and 10, in either order, the rank-10 asset is returned. -/
theorem ges_formatter_get_default_first_max :
    (∀ (assets : List GESAsset) (r : GESAsset),
      ges_formatter_get_default assets = some r →
      r ∈ assets ∧ (∀ b ∈ assets, tmprank b ≤ tmprank r) ∧
      ∃ pre post, assets = pre ++ r :: post ∧ ∀ b ∈ pre, tmprank b < tmprank r) ∧
    (∀ x y : GESAsset, tmprank x = 5 → tmprank y = 10 →
      ges_formatter_get_default [x, y] = some y ∧
      ges_formatter_get_default [y, x] = some y) := by
  constructor
  · intro assets r h
    unfold ges_formatter_get_default at h
    rcases get_default_loop_some assets none GST_RANK_NONE r h with
      ⟨hret, _⟩ | ⟨pre, post, hl, _, hpre, hpost⟩
    · simp at hret
    · refine ⟨by simp [hl], ?_, ⟨pre, post, hl, hpre⟩⟩
      intro b hb
      rw [hl] at hb
      rcases List.mem_append.mp hb with hb | hb
      · exact Nat.le_of_lt (hpre b hb)
      · rcases List.mem_cons.mp hb with rfl | hb
        · exact Nat.le_refl _
        · exact hpost b hb
  · intro x y hx hy
    simp [ges_formatter_get_default, get_default_loop, hx, hy, GST_RANK_NONE]

/-- Witness of C1 on the registry of a rank-5 and a rank-10 asset: in either
order `ges_formatter_get_default` returns the rank-10 asset, which is in the
registry and is outranked by none. -/
theorem ges_formatter_get_default_first_max_witness :
    ges_formatter_get_default [rankedAsset 1 5, rankedAsset 2 10]
      = some (rankedAsset 2 10) ∧
    ges_formatter_get_default [rankedAsset 2 10, rankedAsset 1 5]
      = some (rankedAsset 2 10) ∧
    rankedAsset 2 10 ∈ [rankedAsset 1 5, rankedAsset 2 10] ∧
    (∀ b ∈ [rankedAsset 1 5, rankedAsset 2 10], tmprank b ≤ tmprank (rankedAsset 2 10)) :=
  have s := ges_formatter_get_default_first_max.2 (rankedAsset 1 5) (rankedAsset 2 10)
    rfl rfl
  have h := ges_formatter_get_default_first_max.1 [rankedAsset 1 5, rankedAsset 2 10]
    (rankedAsset 2 10) s.1
  ⟨s.1, s.2, h.1, h.2.1⟩

/-- C2, as stated, fails: a registry holding one asset of rank `GST_RANK_NONE`
is not empty, yet `ges_formatter_get_default` returns no asset. -/
theorem ges_formatter_get_default_rank_none_registry :
    [rankedAsset 1 GST_RANK_NONE] ≠ [] ∧
    ges_formatter_get_default [rankedAsset 1 GST_RANK_NONE] = none ∧
    ¬ (∀ assets : List GESAsset, ges_formatter_get_default assets = none ↔ assets = []) := by
  refine ⟨by simp, rfl, ?_⟩
  intro h
  have := (h [rankedAsset 1 GST_RANK_NONE]).mp rfl
  simp at this

/-- C2, amended: `ges_formatter_get_default` returns none exactly when no
registered asset has a rank above `GST_RANK_NONE` (in particular for the empty
registry); otherwise it returns a registered asset of maximal rank, also when
several assets share that rank. -/
theorem ges_formatter_get_default_none_iff (assets : List GESAsset) :
    ges_formatter_get_default [] = none ∧
    (ges_formatter_get_default assets = none ↔
      ∀ a ∈ assets, tmprank a = GST_RANK_NONE) ∧
    ((∃ a ∈ assets, GST_RANK_NONE < tmprank a) ↔
      ∃ r, ges_formatter_get_default assets = some r ∧ r ∈ assets ∧
        ∀ b ∈ assets, tmprank b ≤ tmprank r) := by
  have hnone : ges_formatter_get_default assets = none ↔
      ∀ a ∈ assets, tmprank a = GST_RANK_NONE := by
    constructor
    · intro h a ha
      have := (get_default_loop_none assets none GST_RANK_NONE h).2 a ha
      simp only [GST_RANK_NONE] at this ⊢
      omega
    · intro h
      exact get_default_loop_low assets none GST_RANK_NONE (fun b hb => by rw [h b hb])
  refine ⟨rfl, hnone, ?_⟩
  constructor
  · rintro ⟨a, ha, hlt⟩
    cases hres : ges_formatter_get_default assets with
    | none =>
      have := hnone.mp hres a ha
      omega
    | some r =>
      have hr := get_default_loop_some assets none GST_RANK_NONE r hres
      rcases hr with ⟨hret, _⟩ | ⟨pre, post, hl, _, hpre, hpost⟩
      · simp at hret
      · refine ⟨r, rfl, by simp [hl], ?_⟩
        intro b hb
        rw [hl] at hb
        rcases List.mem_append.mp hb with hb | hb
        · exact Nat.le_of_lt (hpre b hb)
        · rcases List.mem_cons.mp hb with rfl | hb
          · exact Nat.le_refl _
          · exact hpost b hb
  · rintro ⟨r, hres, hmem, _⟩
    rcases get_default_loop_some assets none GST_RANK_NONE r hres with
      ⟨hret, _⟩ | ⟨pre, post, hl, hlt, _, _⟩
    · simp at hret
    · exact ⟨r, hmem, hlt⟩

/-- Witness of C2 on a registry whose two assets share the maximal rank. -/
theorem ges_formatter_get_default_none_iff_witness :
    ∃ r, ges_formatter_get_default [rankedAsset 1 7, rankedAsset 2 7] = some r ∧
      r ∈ [rankedAsset 1 7, rankedAsset 2 7] ∧
      ∀ b ∈ [rankedAsset 1 7, rankedAsset 2 7], tmprank b ≤ tmprank r :=
  (ges_formatter_get_default_none_iff [rankedAsset 1 7, rankedAsset 2 7]).2.2.mp
    ⟨rankedAsset 1 7, by simp, by decide⟩

/-! ## `ges_formatter_can_load_uri` -/

/-- C3: for a valid URI of the `file` protocol, `ges_formatter_can_load_uri`
returns true exactly when the `can_load_uri` of some registered asset's class
accepts the URI, and false when none does, as for the empty registry. -/
theorem ges_formatter_can_load_uri_iff (gst : GstUri) (assets : List GESAsset)
    (uri : String) (error : GErrorOut)
    (hvalid : gst.gst_uri_is_valid uri = true)
    (hfile : gst.gst_uri_has_protocol uri "file" = true) :
    ((ges_formatter_can_load_uri gst assets uri error).1 = true ↔
      ∃ a ∈ assets, (a.klass.can_load_uri uri).1 = true) ∧
    ((∀ a ∈ assets, (a.klass.can_load_uri uri).1 = false) →
      (ges_formatter_can_load_uri gst assets uri error).1 = false) ∧
    (ges_formatter_can_load_uri gst [] uri error).1 = false := by
  have hrun : ∀ l, ges_formatter_can_load_uri gst l uri error =
      can_load_uri_loop uri l error := by
    intro l
    simp [ges_formatter_can_load_uri, hvalid, hfile]
  have hiff := can_load_uri_loop_true_iff uri assets error
  refine ⟨by rw [hrun]; exact hiff, ?_, by rw [hrun]; rfl⟩
  intro hnone
  rw [hrun]
  cases hres : (can_load_uri_loop uri assets error).1 with
  | false => rfl
  | true =>
    obtain ⟨a, ha, hacc⟩ := hiff.mp hres
    rw [hnone a ha] at hacc
    cases hacc

/-- Witness of C3: a declining and an accepting formatter are registered. -/
theorem ges_formatter_can_load_uri_iff_witness :
    (ges_formatter_can_load_uri sampleGst [decliningAsset 1 5, acceptingAsset 2 10]
      "file:///tmp/project.xges" (some none)).1 = true ↔
    ∃ a ∈ [decliningAsset 1 5, acceptingAsset 2 10],
      (a.klass.can_load_uri "file:///tmp/project.xges").1 = true :=
  (ges_formatter_can_load_uri_iff sampleGst [decliningAsset 1 5, acceptingAsset 2 10]
    "file:///tmp/project.xges" (some none) (by decide) (by decide)).1

/-- C4, as stated, fails: on an invalid URI the caller's empty `GError *` is
still empty after `ges_formatter_can_load_uri` returns, so no error is reported. -/
theorem ges_formatter_can_load_uri_invalid_no_error :
    sampleGst.gst_uri_is_valid "no colon here" = false ∧
    ges_formatter_can_load_uri sampleGst [acceptingAsset 1 10] "no colon here" (some none)
      = (false, some none) ∧
    ¬ ∃ e, (ges_formatter_can_load_uri sampleGst [acceptingAsset 1 10] "no colon here"
      (some none)).2 = some (some e) := by
  refine ⟨by decide, by decide, ?_⟩
  rintro ⟨e, he⟩
  have h : (ges_formatter_can_load_uri sampleGst [acceptingAsset 1 10] "no colon here"
      (some none)).2 = some none := by decide
  rw [h] at he
  cases he

/-- C4, amended: on an invalid URI `ges_formatter_can_load_uri` returns false and
leaves the caller's `error` as it was, whatever the registry holds: any two
registries give the same outcome, that of the empty registry. -/
theorem ges_formatter_can_load_uri_invalid (gst : GstUri) (assets others : List GESAsset)
    (uri : String) (error : GErrorOut) (hinvalid : gst.gst_uri_is_valid uri = false) :
    ges_formatter_can_load_uri gst assets uri error = (false, error) ∧
    ges_formatter_can_load_uri gst assets uri error =
      ges_formatter_can_load_uri gst others uri error ∧
    ges_formatter_can_load_uri gst assets uri error =
      ges_formatter_can_load_uri gst [] uri error := by
  simp [ges_formatter_can_load_uri, hinvalid]

/-- Witness of C4, amended. -/
theorem ges_formatter_can_load_uri_invalid_witness :
    ges_formatter_can_load_uri sampleGst [acceptingAsset 1 10] "no colon here" (some none)
      = (false, some none) :=
  (ges_formatter_can_load_uri_invalid sampleGst [acceptingAsset 1 10] [] "no colon here"
    (some none) (by decide)).1

/-- C5, as stated, fails: on a valid URI of the `http` protocol the caller's
empty `GError *` is still empty after `ges_formatter_can_load_uri` returns. -/
theorem ges_formatter_can_load_uri_http_no_error :
    sampleGst.gst_uri_is_valid "http://example.org/p.xges" = true ∧
    sampleGst.gst_uri_has_protocol "http://example.org/p.xges" "file" = false ∧
    ((acceptingAsset 1 10).klass.can_load_uri "http://example.org/p.xges").1 = true ∧
    ges_formatter_can_load_uri sampleGst [acceptingAsset 1 10] "http://example.org/p.xges"
      (some none) = (false, some none) ∧
    ¬ ∃ e, (ges_formatter_can_load_uri sampleGst [acceptingAsset 1 10]
      "http://example.org/p.xges" (some none)).2 = some (some e) := by
  refine ⟨by decide, by decide, rfl, by decide, ?_⟩
  rintro ⟨e, he⟩
  have h : (ges_formatter_can_load_uri sampleGst [acceptingAsset 1 10]
      "http://example.org/p.xges" (some none)).2 = some none := by decide
  rw [h] at he
  cases he

/-- C5, amended: on a valid URI whose protocol is not `file`,
`ges_formatter_can_load_uri` returns false and leaves the caller's `error` as it
was, even when a registered formatter's `can_load_uri` accepts the URI. -/
theorem ges_formatter_can_load_uri_other_protocol (gst : GstUri) (assets : List GESAsset)
    (uri : String) (error : GErrorOut)
    (hvalid : gst.gst_uri_is_valid uri = true)
    (hother : gst.gst_uri_has_protocol uri "file" = false) :
    ges_formatter_can_load_uri gst assets uri error = (false, error) := by
  simp [ges_formatter_can_load_uri, hvalid, hother]

/-- Witness of C5, amended: the registered formatter accepts the `http` URI. -/
theorem ges_formatter_can_load_uri_other_protocol_witness :
    ((acceptingAsset 1 10).klass.can_load_uri "http://example.org/p.xges").1 = true ∧
    ges_formatter_can_load_uri sampleGst [acceptingAsset 1 10] "http://example.org/p.xges"
      (some none) = (false, some none) :=
  ⟨rfl, ges_formatter_can_load_uri_other_protocol sampleGst [acceptingAsset 1 10]
    "http://example.org/p.xges" (some none) (by decide) (by decide)⟩

/-! ## `_find_formatter_asset_for_uri` -/

/-- C6, as stated, fails: `_find_formatter_asset_for_uri` validates nothing, so
for a URI of the `http` protocol that a registered formatter accepts it returns
that formatter's asset, while `ges_formatter_can_load_uri` returns false. -/
theorem find_formatter_asset_for_uri_http :
    sampleGst.gst_uri_has_protocol "http://example.org/p.xges" "file" = false ∧
    (_find_formatter_asset_for_uri "http://example.org/p.xges" [acceptingAsset 1 10]).isSome
      = true ∧
    (ges_formatter_can_load_uri sampleGst [acceptingAsset 1 10] "http://example.org/p.xges"
      (some none)).1 = false := by
  refine ⟨by decide, rfl, by decide⟩

/-- C6, amended: `_find_formatter_asset_for_uri` returns the first asset in
registry order whose class's `can_load_uri` accepts the URI and none when no
class accepts it, without any URI validation of its own; for a valid URI of the
`file` protocol it returns an asset exactly when `ges_formatter_can_load_uri`
returns true. -/
theorem find_formatter_asset_for_uri_first (gst : GstUri) (assets : List GESAsset)
    (uri : String) (error : GErrorOut)
    (hvalid : gst.gst_uri_is_valid uri = true)
    (hfile : gst.gst_uri_has_protocol uri "file" = true) :
    _find_formatter_asset_for_uri uri assets =
      assets.find? (fun a => (a.klass.can_load_uri uri).1) ∧
    (∀ r, _find_formatter_asset_for_uri uri assets = some r →
      ∃ pre post, assets = pre ++ r :: post ∧ (r.klass.can_load_uri uri).1 = true ∧
        ∀ b ∈ pre, (b.klass.can_load_uri uri).1 = false) ∧
    (_find_formatter_asset_for_uri uri assets = none ↔
      ∀ a ∈ assets, (a.klass.can_load_uri uri).1 = false) ∧
    ((_find_formatter_asset_for_uri uri assets).isSome = true ↔
      (ges_formatter_can_load_uri gst assets uri error).1 = true) := by
  have hfind : ∀ l : List GESAsset, _find_formatter_asset_for_uri uri l =
      l.find? (fun a => (a.klass.can_load_uri uri).1) := by
    intro l
    induction l with
    | nil => rfl
    | cons a tmp ih =>
      unfold _find_formatter_asset_for_uri
      by_cases h : (a.klass.can_load_uri uri).1 = true
      · simp [h]
      · simp [h, ih]
  have hsplit : ∀ (l : List GESAsset) (r : GESAsset),
      _find_formatter_asset_for_uri uri l = some r →
      ∃ pre post, l = pre ++ r :: post ∧ (r.klass.can_load_uri uri).1 = true ∧
        ∀ b ∈ pre, (b.klass.can_load_uri uri).1 = false := by
    intro l
    induction l with
    | nil => intro r h; simp [_find_formatter_asset_for_uri] at h
    | cons a tmp ih =>
      intro r h
      unfold _find_formatter_asset_for_uri at h
      by_cases hacc : (a.klass.can_load_uri uri).1 = true
      · rw [if_pos hacc] at h
        have har : a = r := by simpa using h
        subst har
        exact ⟨[], tmp, rfl, hacc, by simp⟩
      · rw [if_neg hacc] at h
        obtain ⟨pre, post, hl, hr, hpre⟩ := ih r h
        refine ⟨a :: pre, post, by simp [hl], hr, ?_⟩
        intro b hb
        rcases List.mem_cons.mp hb with rfl | hb
        · simpa using hacc
        · exact hpre b hb
  have hnone : _find_formatter_asset_for_uri uri assets = none ↔
      ∀ a ∈ assets, (a.klass.can_load_uri uri).1 = false := by
    rw [hfind, List.find?_eq_none]
    simp
  refine ⟨hfind assets, hsplit assets, hnone, ?_⟩
  have hrun : ges_formatter_can_load_uri gst assets uri error =
      can_load_uri_loop uri assets error := by
    simp [ges_formatter_can_load_uri, hvalid, hfile]
  rw [hrun, can_load_uri_loop_true_iff, Option.isSome_iff_ne_none, Ne, hnone]
  simp

/-- Witness of C6, amended: the second registered formatter is the first to accept. -/
theorem find_formatter_asset_for_uri_first_witness :
    (_find_formatter_asset_for_uri "file:///tmp/project.xges"
      [decliningAsset 1 5, acceptingAsset 2 10]).isSome = true ↔
    (ges_formatter_can_load_uri sampleGst [decliningAsset 1 5, acceptingAsset 2 10]
      "file:///tmp/project.xges" (some none)).1 = true :=
  (find_formatter_asset_for_uri_first sampleGst [decliningAsset 1 5, acceptingAsset 2 10]
    "file:///tmp/project.xges" (some none) (by decide) (by decide)).2.2.2

/-! ## `ges_formatter_load_from_uri` -/

/-- C7, as stated, fails: for a formatter whose class has no load routine (the
class as `ges_formatter_class_init` leaves it) and a timeline whose
recomputation is disabled, recomputation is still disabled after
`ges_formatter_load_from_uri` returns. -/
theorem ges_formatter_load_from_uri_no_routine_disabled :
    (ges_formatter_load_from_uri (ges_formatter_init ges_formatter_class_init)
      (sampleTimeline false) "file:///tmp/project.xges" (some none)).timeline.update
      = false ∧
    ¬ (∀ (formatter : GESFormatter) (timeline : GESTimeline) (uri : String)
        (error : GErrorOut),
        (ges_formatter_load_from_uri formatter timeline uri error).timeline.update
          = true) := by
  refine ⟨rfl, ?_⟩
  intro h
  have := h (ges_formatter_init ges_formatter_class_init) (sampleTimeline false) "" none
  simp [ges_formatter_load_from_uri, ges_formatter_init, ges_formatter_class_init,
    sampleTimeline] at this

/-- C7, amended: when the formatter's class has a load routine,
`ges_formatter_load_from_uri` disables recomputation once before the routine
and enables it once after it, so that recomputation is enabled on return
whatever state the timeline was in and whatever the routine returned, and the
routine's boolean result is returned; when the class has no load routine the
timeline is left untouched (nothing is disabled) and false is returned. -/
theorem ges_formatter_load_from_uri_update (formatter : GESFormatter)
    (timeline : GESTimeline) (uri : String) (error : GErrorOut) :
    (∀ load, formatter.klass.load_from_uri = some load →
      (ges_formatter_load_from_uri formatter timeline uri error).timeline.update = true ∧
      (ges_formatter_load_from_uri formatter timeline uri error).timeline =
        ges_timeline_enable_update
          (load { formatter.fields with timeline := some timeline.id }
            (ges_timeline_enable_update timeline false) uri).timeline true ∧
      (ges_formatter_load_from_uri formatter timeline uri error).ret =
        (load { formatter.fields with timeline := some timeline.id }
          (ges_timeline_enable_update timeline false) uri).ret) ∧
    (formatter.klass.load_from_uri = none →
      (ges_formatter_load_from_uri formatter timeline uri error).timeline = timeline ∧
      (ges_formatter_load_from_uri formatter timeline uri error).ret = false) := by
  constructor
  · intro load hload
    simp [ges_formatter_load_from_uri, hload, ges_timeline_enable_update]
  · intro hload
    simp [ges_formatter_load_from_uri, hload]

/-- Witness of C7, amended: a load routine that fails on a timeline whose
recomputation was disabled beforehand. -/
theorem ges_formatter_load_from_uri_update_witness :
    (ges_formatter_load_from_uri (ges_formatter_init (loadingClass false))
      (sampleTimeline false) "file:///tmp/project.xges" (some none)).ret = false ∧
    (ges_formatter_load_from_uri (ges_formatter_init (loadingClass false))
      (sampleTimeline false) "file:///tmp/project.xges" (some none)).timeline.update
      = true :=
  have h := (ges_formatter_load_from_uri_update (ges_formatter_init (loadingClass false))
    (sampleTimeline false) "file:///tmp/project.xges" (some none)).1
    (sampleLoad false) rfl
  ⟨rfl, h.1⟩

/-! ## `ges_formatter_save_to_uri` -/

/-- C8, as stated, fails: for a formatter whose class has no save routine (the
class as `ges_formatter_class_init` leaves it) `ges_formatter_save_to_uri`
returns false and the caller's empty `GError *` is still empty. -/
theorem ges_formatter_save_to_uri_no_routine_no_error :
    (ges_formatter_init ges_formatter_class_init).klass.save_to_uri.isNone = true ∧
    ges_formatter_save_to_uri (ges_formatter_init ges_formatter_class_init)
      (sampleTimeline true) "file:///tmp/project.xges" true (some none)
      = (false, some none) ∧
    ¬ ∃ e, (ges_formatter_save_to_uri (ges_formatter_init ges_formatter_class_init)
      (sampleTimeline true) "file:///tmp/project.xges" true (some none)).2
      = some (some e) := by
  refine ⟨rfl, rfl, ?_⟩
  rintro ⟨e, he⟩
  have h : (ges_formatter_save_to_uri (ges_formatter_init ges_formatter_class_init)
      (sampleTimeline true) "file:///tmp/project.xges" true (some none)).2
      = some none := rfl
  rw [h] at he
  cases he

/-- C8, amended: for a formatter whose class has no save routine
`ges_formatter_save_to_uri` returns false and leaves the caller's `error` as it
was; for a formatter whose save routine produces an error, that error is
propagated to the caller (it lands in an empty `GError *`) together with the
routine's boolean result; and a routine that produces no error has its result
returned with `error` untouched. -/
theorem ges_formatter_save_to_uri_outcome (formatter : GESFormatter)
    (timeline : GESTimeline) (uri : String) (overwrite : Bool) (error : GErrorOut) :
    (formatter.klass.save_to_uri = none →
      ges_formatter_save_to_uri formatter timeline uri overwrite error = (false, error)) ∧
    (∀ save ret lerr, formatter.klass.save_to_uri = some save →
      save formatter.fields timeline uri overwrite = (ret, some lerr) →
      ges_formatter_save_to_uri formatter timeline uri overwrite error
        = (ret, g_propagate_error error lerr) ∧
      ges_formatter_save_to_uri formatter timeline uri overwrite (some none)
        = (ret, some (some lerr))) ∧
    (∀ save ret, formatter.klass.save_to_uri = some save →
      save formatter.fields timeline uri overwrite = (ret, none) →
      ges_formatter_save_to_uri formatter timeline uri overwrite error = (ret, error)) := by
  refine ⟨?_, ?_, ?_⟩
  · intro h
    simp [ges_formatter_save_to_uri, h]
  · intro save ret lerr h hs
    simp [ges_formatter_save_to_uri, h, hs, g_propagate_error]
  · intro save ret h hs
    simp [ges_formatter_save_to_uri, h, hs]

/-- Witness of C8, amended: a save routine that fails with `sampleError`. -/
theorem ges_formatter_save_to_uri_outcome_witness :
    ges_formatter_save_to_uri (ges_formatter_init (loadingClass false))
      (sampleTimeline true) "file:///tmp/project.xges" true (some none)
      = (false, some (some sampleError)) :=
  ((ges_formatter_save_to_uri_outcome (ges_formatter_init (loadingClass false))
    (sampleTimeline true) "file:///tmp/project.xges" true (some none)).2.1
    (fun _ _ _ _ => (false, some sampleError)) false sampleError rfl rfl).2

/-! ## `ges_formatter_can_save_uri` -/

/-- C9: `ges_formatter_can_save_uri` returns true exactly when the URI is valid
and has the `file` protocol and never touches `error`; it validates as
`ges_formatter_can_load_uri` does (where it returns false, the load query
returns the same outcome for every registry; where it returns true, the load
query goes on to its registry loop); and no registry is consulted: for a valid
`file` URI it returns true although the load query on the empty registry
returns false. -/
theorem ges_formatter_can_save_uri_iff (gst : GstUri) (uri : String) (error : GErrorOut) :
    ((ges_formatter_can_save_uri gst uri error).1 = true ↔
      gst.gst_uri_is_valid uri = true ∧ gst.gst_uri_has_protocol uri "file" = true) ∧
    (ges_formatter_can_save_uri gst uri error).2 = error ∧
    ((ges_formatter_can_save_uri gst uri error).1 = false →
      ∀ assets, ges_formatter_can_load_uri gst assets uri error =
        ges_formatter_can_save_uri gst uri error) ∧
    ((ges_formatter_can_save_uri gst uri error).1 = true →
      (∀ assets, ges_formatter_can_load_uri gst assets uri error =
        can_load_uri_loop uri assets error) ∧
      (ges_formatter_can_load_uri gst [] uri error).1 = false) := by
  unfold ges_formatter_can_save_uri ges_formatter_can_load_uri
  cases hv : gst.gst_uri_is_valid uri <;> cases hf : gst.gst_uri_has_protocol uri "file" <;>
    simp [can_load_uri_loop]

/-- Witness of C9: a valid `file` URI is savable with no formatter registered. -/
theorem ges_formatter_can_save_uri_iff_witness :
    (ges_formatter_can_save_uri sampleGst "file:///tmp/project.xges" (some none)).1 = true ∧
    (ges_formatter_can_load_uri sampleGst [] "file:///tmp/project.xges" (some none)).1
      = false :=
  have h := ges_formatter_can_save_uri_iff sampleGst "file:///tmp/project.xges" (some none)
  ⟨h.1.mpr ⟨by decide, by decide⟩, (h.2.2.2 (h.1.mpr ⟨by decide, by decide⟩)).2⟩

/-! ## Discovery -/

theorem concreteTypes_append (a b : List GTypeNode) :
    concreteTypes (a ++ b) = concreteTypes a ++ concreteTypes b := by
  simp [concreteTypes]

theorem concreteTypes_subtree (type : Nat) (is_abstract : Bool) (children : List GTypeNode) :
    concreteTypes (subtree (.node type is_abstract children)) =
      (if is_abstract then [] else [type]) ++ concreteTypes (subtrees children) := by
  cases is_abstract <;>
    simp [subtree, concreteTypes, G_TYPE_IS_ABSTRACT, GTypeNode.type, List.filter_cons]

mutual
theorem list_formatters_step_perm : ∀ (t : GTypeNode) (requested : List Nat),
    (_list_formatters_step t requested).Perm (requested ++ concreteTypes (subtree t))
  | .node type is_abstract children, requested => by
    have hch : (if children.length ≠ 0 then _list_formatters children requested
        else requested).Perm (requested ++ concreteTypes (subtrees children)) := by
      by_cases hlen : children.length ≠ 0
      · rw [if_pos hlen]
        exact list_formatters_perm children requested
      · rw [if_neg hlen]
        have : children = [] := by
          cases children with
          | nil => rfl
          | cons _ _ => simp at hlen
        subst this
        simp [subtrees, concreteTypes]
    rw [_list_formatters_step, concreteTypes_subtree]
    cases is_abstract with
    | true => simpa using hch
    | false =>
      simp only [Bool.false_eq_true, if_false]
      refine (hch.append_right [type]).trans ?_
      rw [List.append_assoc]
      exact List.Perm.append_left requested List.perm_append_comm
theorem list_formatters_perm : ∀ (types : List GTypeNode) (requested : List Nat),
    (_list_formatters types requested).Perm (requested ++ concreteTypes (subtrees types))
  | [], requested => by simp [_list_formatters, subtrees, concreteTypes]
  | t :: rest, requested => by
    rw [_list_formatters, subtrees, concreteTypes_append, ← List.append_assoc]
    exact (list_formatters_perm rest _).trans
      ((list_formatters_step_perm t requested).append_right _)
end

/-- C10: the discovery pass is a total function of the type tree (it terminates
on every finite hierarchy), and its `ges_asset_request` calls are, up to order,
exactly the concrete strict descendants of the root: every concrete descendant
is requested, every request is for a concrete descendant, and, the `GType`s of
the hierarchy being distinct, each concrete descendant is requested exactly
once and no abstract one is requested, children of abstract types included. -/
theorem init_formatter_assets_requests (root : GTypeNode) :
    (_init_formatter_assets root).Perm (concreteTypes (descendants root)) ∧
    (∀ t ∈ descendants root, G_TYPE_IS_ABSTRACT t = false →
      t.type ∈ _init_formatter_assets root) ∧
    (∀ id ∈ _init_formatter_assets root,
      ∃ t ∈ descendants root, G_TYPE_IS_ABSTRACT t = false ∧ t.type = id) ∧
    (((descendants root).map GTypeNode.type).Nodup →
      (_init_formatter_assets root).Nodup ∧
      ∀ t ∈ descendants root,
        (_init_formatter_assets root).count t.type =
          if G_TYPE_IS_ABSTRACT t then 0 else 1) := by
  have hperm : (_init_formatter_assets root).Perm (concreteTypes (descendants root)) := by
    have := list_formatters_perm (g_type_children root) []
    simpa [_init_formatter_assets, descendants] using this
  have hmem : ∀ id, id ∈ concreteTypes (descendants root) ↔
      ∃ t ∈ descendants root, G_TYPE_IS_ABSTRACT t = false ∧ t.type = id := by
    intro id
    simp [concreteTypes, and_assoc]
  refine ⟨hperm, ?_, ?_, ?_⟩
  · intro t ht habs
    exact hperm.symm.subset ((hmem _).mpr ⟨t, ht, habs, rfl⟩)
  · intro id hid
    exact (hmem id).mp (hperm.subset hid)
  · intro hnodup
    have hsub : (concreteTypes (descendants root)).Sublist
        ((descendants root).map GTypeNode.type) :=
      (List.filter_sublist _).map _
    have hnd : (concreteTypes (descendants root)).Nodup := hnodup.sublist hsub
    refine ⟨(hperm.nodup_iff).mpr hnd, ?_⟩
    intro t ht
    rw [hperm.count_eq]
    cases habs : G_TYPE_IS_ABSTRACT t with
    | false =>
      simp only [Bool.false_eq_true, if_false]
      exact List.count_eq_one_of_mem hnd ((hmem _).mpr ⟨t, ht, habs, rfl⟩)
    | true =>
      simp only [if_true]
      apply List.count_eq_zero_of_not_mem
      intro hin
      obtain ⟨u, hu, huabs, hut⟩ := (hmem _).mp hin
      have := List.inj_on_of_nodup_map hnodup hu ht hut
      rw [this, habs] at huabs
      cases huabs

/-- Witness of C10 on `sampleTypes`: the concrete type 2 below the abstract type
1 is requested, and the abstract type 1 is not. -/
theorem init_formatter_assets_requests_witness :
    _init_formatter_assets sampleTypes = [2, 4, 3] ∧
    (∀ t ∈ descendants sampleTypes,
      (_init_formatter_assets sampleTypes).count t.type =
        if G_TYPE_IS_ABSTRACT t then 0 else 1) :=
  ⟨by decide,
    ((init_formatter_assets_requests sampleTypes).2.2.2 (by decide)).2⟩

/-! ## `ges_audio_track_new` -/

/-- C11: on either byte order `ges_audio_track_new` yields a track of type audio
whose base capability is the bare `audio/x-raw`, whose gap strategy is set (to
`create_element_for_raw_audio_gap`), and whose restriction is `audio/x-raw`
with format S32LE on a little-endian and S32BE on a big-endian platform,
channels 2, rate 44100 and layout interleaved; the restriction has the media
type of the base capability and keeps all of its fields. -/
theorem ges_audio_track_new_defaults (order : GByteOrder) :
    (ges_audio_track_new order).props.type = GESTrackType.GES_TRACK_TYPE_AUDIO ∧
    (ges_audio_track_new order).props.caps =
      some { media_type := "audio/x-raw", fields := [] } ∧
    (ges_audio_track_new order).create_element_for_gap.isSome = true ∧
    (ges_audio_track_new order).create_element_for_gap.map
        (fun f => f (ges_audio_track_new order).props) =
      some { factory := "audiotestsrc", properties := [("wave", 4)] } ∧
    (ges_audio_track_new order).props.restriction_caps =
      some { media_type := "audio/x-raw",
             fields := [("format", GstValue.str (match order with
                          | .G_LITTLE_ENDIAN => "S32LE"
                          | .G_BIG_ENDIAN => "S32BE")),
                        ("channels", GstValue.int 2),
                        ("rate", GstValue.int 44100),
                        ("layout", GstValue.str "interleaved")] } ∧
    (∀ base restriction, (ges_audio_track_new order).props.caps = some base →
      (ges_audio_track_new order).props.restriction_caps = some restriction →
      restriction.media_type = base.media_type ∧
      (∀ f ∈ base.fields, f ∈ restriction.fields) ∧
      gst_caps_refines restriction base = true) := by
  have hcaps : (ges_audio_track_new order).props.caps =
      some { media_type := "audio/x-raw", fields := [] } := by
    cases order <;> decide
  refine ⟨by cases order <;> decide, hcaps, by cases order <;> rfl,
    by cases order <;> rfl, by cases order <;> decide, ?_⟩
  intro base restriction hbase hrestriction
  rw [hcaps] at hbase
  have hb : base = { media_type := "audio/x-raw", fields := [] } :=
    (Option.some.inj hbase).symm
  subst hb
  cases order with
  | G_LITTLE_ENDIAN =>
    have hr : (ges_audio_track_new GByteOrder.G_LITTLE_ENDIAN).props.restriction_caps =
        some { media_type := "audio/x-raw",
               fields := [("format", GstValue.str "S32LE"), ("channels", GstValue.int 2),
                          ("rate", GstValue.int 44100),
                          ("layout", GstValue.str "interleaved")] } := by decide
    rw [hr] at hrestriction
    have := (Option.some.inj hrestriction).symm
    subst this
    exact ⟨rfl, by simp, by decide⟩
  | G_BIG_ENDIAN =>
    have hr : (ges_audio_track_new GByteOrder.G_BIG_ENDIAN).props.restriction_caps =
        some { media_type := "audio/x-raw",
               fields := [("format", GstValue.str "S32BE"), ("channels", GstValue.int 2),
                          ("rate", GstValue.int 44100),
                          ("layout", GstValue.str "interleaved")] } := by decide
    rw [hr] at hrestriction
    have := (Option.some.inj hrestriction).symm
    subst this
    exact ⟨rfl, by simp, by decide⟩

/-- Witness of C11 on a little-endian platform: the default restriction refines
the base capability of the new track. -/
theorem ges_audio_track_new_defaults_witness :
    gst_caps_refines
      { media_type := "audio/x-raw",
        fields := [("format", GstValue.str "S32LE"), ("channels", GstValue.int 2),
                   ("rate", GstValue.int 44100), ("layout", GstValue.str "interleaved")] }
      { media_type := "audio/x-raw", fields := [] } = true :=
  ((ges_audio_track_new_defaults GByteOrder.G_LITTLE_ENDIAN).2.2.2.2.2
    { media_type := "audio/x-raw", fields := [] }
    { media_type := "audio/x-raw",
      fields := [("format", GstValue.str "S32LE"), ("channels", GstValue.int 2),
                 ("rate", GstValue.int 44100), ("layout", GstValue.str "interleaved")] }
    (by decide) (by decide)).2.2

end GES
